import Mathlib

/-!
Shallow embedding of the ContaCloud SMTP-to-SendGrid relay (src/main.go)
and proofs about its session callbacks, allow-list check, multipart
content selection, provider-response interpretation and logging helpers.

Go strings are byte sequences.  The relay's string operations with ASCII
needles (case folding of domains, suffix/containment tests) agree with the
character-level view on valid UTF-8 input, so those are modelled over
`String` (a list of characters); `truncate`, which slices at a byte index,
is modelled over the byte sequence itself (`List Nat`).

External collaborators (the go-smtp protocol engine, the Go standard
library's media-type/multipart/address parsers, and the SendGrid HTTP
client) are modelled as parameters: the embedding takes their outcomes
(parsed media type, part list, parsed addresses, HTTP response) as inputs,
and the functions below reproduce exactly what src/main.go does with
those outcomes.
-/

namespace SmtpRelay

/-- Character-list test: `pat` begins the list `s` (helper for the Go
string predicates below). -/
def isPrefixOfL : List Char → List Char → Bool
  | [], _ => true
  | _ :: _, [] => false
  | a :: as, b :: bs => a == b && isPrefixOfL as bs

/-- Character-list test: `pat` occurs contiguously inside `s`. -/
def containsSubL (pat : List Char) : List Char → Bool
  | [] => isPrefixOfL pat []
  | b :: rest => isPrefixOfL pat (b :: rest) || containsSubL pat rest

/-- Go `strings.Contains s pat`. -/
def containsSubstr (s pat : String) : Bool := containsSubL pat.data s.data

/-- Go `strings.HasSuffix s pat`. -/
def hasSuffixStr (s pat : String) : Bool := isPrefixOfL pat.data.reverse s.data.reverse

/-- Go `strings.HasPrefix s pat` (used by `handleMultipart` on the media type). -/
def hasPrefixStr (s pat : String) : Bool := isPrefixOfL pat.data s.data

/-- Go `strings.ToLower` (character-wise case folding; the relay applies it
to addresses and configured domains). -/
def toLowerStr (s : String) : String := String.mk (s.data.map Char.toLower)

/-- Go `strings.Trim s "<>"`: remove every leading and trailing `<` or `>`. -/
def trimAngles (s : String) : String :=
  String.mk
    (((s.data.dropWhile fun c => c == '<' || c == '>').reverse.dropWhile
        fun c => c == '<' || c == '>').reverse)

/-- Relay configuration (struct `Config`, src/main.go lines 36-42). -/
structure Config where
  sendGridAPIKey : String
  listenAddr : String
  domain : String
  logLevel : String
  allowedSenders : List String

/-- Per-connection session (struct `Session`, src/main.go lines 110-115).
The Go fields `from` and `to` are Lean keywords, hence `from_` and `to_`. -/
structure Session where
  config : Config
  remoteAddr : String
  from_ : String
  to_ : List String

/-- Session as constructed by `Backend.NewSession` (src/main.go lines 100-107):
empty envelope. -/
def Session.initial (cfg : Config) (remoteAddr : String) : Session :=
  { config := cfg, remoteAddr := remoteAddr, from_ := "", to_ := [] }

/-- The allow-list loop of `Session.Mail` (src/main.go lines 126-134): some
configured domain matches the lowercased sender by the `@domain` suffix
rule or the `.domain>` suffix rule. -/
def senderAllowed (allowedSenders : List String) (f : String) : Bool :=
  allowedSenders.any fun domain =>
    hasSuffixStr (toLowerStr f) ("@" ++ toLowerStr domain) ||
    hasSuffixStr (toLowerStr f) ("." ++ toLowerStr domain ++ ">")

/-- `Session.Mail` (src/main.go lines 123-144).  Go methods mutate the
receiver and return an error; modelled as returning the new session state
and an optional error message. -/
def Session.Mail (s : Session) (f : String) : Session × Option String :=
  if s.config.allowedSenders.length > 0 && !senderAllowed s.config.allowedSenders f then
    (s, some "sender domain not allowed")
  else
    ({ s with from_ := f }, none)

/-- `Session.Rcpt` (src/main.go lines 146-150): append the raw recipient. -/
def Session.Rcpt (s : Session) (t : String) : Session × Option String :=
  ({ s with to_ := s.to_ ++ [t] }, none)

/-- `Session.Reset` (src/main.go lines 312-316): clear sender and recipients. -/
def Session.Reset (s : Session) : Session :=
  { s with from_ := "", to_ := [] }

/-- Go `truncate` (src/main.go lines 334-339) over the byte sequence of the
string: Go `len` and slicing count bytes.  `[46, 46, 46]` is `"..."`. -/
def truncate (s : List Nat) (maxLen : Nat) : List Nat :=
  if s.length ≤ maxLen then s else s.take maxLen ++ [46, 46, 46]

/-- Subject value logged by `Session.Data` on success (src/main.go line 196):
`truncate(subject, 50)`. -/
def loggedSubject (subject : List Nat) : List Nat := truncate subject 50

/-- One content block of the outbound request (`sgmail.NewContent`,
used at src/main.go lines 231-237 and 298-302). -/
structure Content where
  mimeType : String
  value : String
deriving DecidableEq

/-- One MIME part as yielded by the standard library's multipart reader
(external collaborator).  `readOk` models whether `io.ReadAll(part)`
succeeds; parts that fail to read are skipped (src/main.go lines 285-288). -/
structure Part where
  contentType : String
  body : String
  readOk : Bool
deriving DecidableEq

/-- Outcome of `mime.ParseMediaType` on the Content-Type header (external
collaborator): failure, or a media type plus the `boundary` parameter
(`""` when the parameter is absent, as Go's map lookup yields). -/
inductive MediaTypeResult where
  | err
  | parsed (mediaType : String) (boundary : String)
deriving DecidableEq

/-- The part loop of `handleMultipart` (src/main.go lines 275-295): fold
over the parts, remembering the body of the last readable part whose own
Content-Type contains `text/plain` and, failing that test, the last whose
Content-Type contains `text/html`. -/
def scanParts : List Part → String × String → String × String
  | [], acc => acc
  | p :: rest, (textContent, htmlContent) =>
    if !p.readOk then scanParts rest (textContent, htmlContent)
    else if containsSubstr p.contentType "text/plain" then
      scanParts rest (p.body, htmlContent)
    else if containsSubstr p.contentType "text/html" then
      scanParts rest (textContent, p.body)
    else scanParts rest (textContent, htmlContent)

/-- `Session.handleMultipart` (src/main.go lines 256-310).  The media-type
parse outcome and the part iteration outcome (`iterErr` models a non-EOF
`NextPart` error) come from the external standard library; everything done
with them here mirrors the Go function.  Returns the content blocks added
to the message, or the error returned to the caller. -/
def handleMultipart (mt : MediaTypeResult) (iterErr : Bool) (parts : List Part) :
    Except String (List Content) :=
  match mt with
  | .err => .error "media type parse error"
  | .parsed mediaType boundary =>
    if !hasPrefixStr mediaType "multipart/" then .error "not a multipart message"
    else if boundary == "" then .error "no boundary found"
    else if iterErr then .error "part iteration error"
    else
      let tc := (scanParts parts ("", "")).1
      let hc := (scanParts parts ("", "")).2
      let blocks :=
        (if hc != "" then [Content.mk "text/html" hc] else []) ++
        (if tc != "" then [Content.mk "text/plain" tc] else [])
      if tc == "" && hc == "" then .error "no text or html content found"
      else .ok blocks

/-- Content selection of `Session.sendViaSendGrid` (src/main.go lines
226-238): multipart path with fallback to the raw body on any multipart
error, else html passthrough, else plain-text default. -/
def buildContent (mt : MediaTypeResult) (iterErr : Bool) (parts : List Part)
    (body contentType : String) : List Content :=
  if containsSubstr contentType "multipart/" then
    match handleMultipart mt iterErr parts with
    | .error _ => [Content.mk "text/plain" body]
    | .ok blocks => blocks
  else if containsSubstr contentType "text/html" then [Content.mk "text/html" body]
  else [Content.mk "text/plain" body]

/-- A parsed mail address (`net/mail.Address`): display name and address. -/
structure MailAddress where
  name : String
  address : String
deriving DecidableEq

/-- Address resolution of `sendViaSendGrid` (src/main.go lines 202-207 and
216-221): use `mail.ParseAddress` (external collaborator, passed in as
`parse`); on failure fall back to the raw string stripped of angle
brackets with an empty display name. -/
def resolveAddr (parse : String → Option MailAddress) (raw : String) : MailAddress :=
  match parse raw with
  | some a => a
  | none => { name := "", address := trimAngles raw }

/-- The outbound request assembled by `sendViaSendGrid` before the HTTP
call (src/main.go lines 201-238). -/
structure SendRequest where
  fromAddr : MailAddress
  tos : List MailAddress
  subject : String
  contents : List Content
deriving DecidableEq

/-- Request-building part of `Session.sendViaSendGrid` (src/main.go lines
201-238), with the external parsers' outcomes as inputs. -/
def Session.sendViaSendGrid (parse : String → Option MailAddress)
    (f : String) (tos : List String) (subject : String)
    (body : String) (contentType : String)
    (mt : MediaTypeResult) (iterErr : Bool) (parts : List Part) : SendRequest :=
  { fromAddr := resolveAddr parse f
    tos := tos.map (resolveAddr parse)
    subject := subject
    contents := buildContent mt iterErr parts body contentType }

/-- The SendGrid HTTP response (`rest.Response`): status code and body. -/
structure RestResponse where
  statusCode : Nat
  body : String
deriving DecidableEq

/-- Response interpretation of `Session.sendViaSendGrid` (src/main.go lines
240-253): a transport error is wrapped and returned; a status of at least
400 becomes an error carrying the status and the response body; anything
below 400 succeeds. -/
def interpretSendResult (result : Except String RestResponse) : Except String Unit :=
  match result with
  | .error e => .error ("sendgrid API error: " ++ e)
  | .ok response =>
    if 400 ≤ response.statusCode then
      .error ("sendgrid returned status " ++ toString response.statusCode ++ ": "
        ++ response.body)
    else .ok ()

/-- Parsed message headers and body as produced by `mail.ReadMessage`
(external collaborator): an ordered header list (keys already in canonical
form) and the raw body bytes (as a string, as Go converts them). -/
structure Message where
  headers : List (String × String)
  body : String

/-- Go `net/mail` `Header.Get`: first value for the key, `""` when absent. -/
def headerGet (headers : List (String × String)) (key : String) : String :=
  match headers.find? (fun kv => kv.1 == key) with
  | some kv => kv.2
  | none => ""

/-- The request built by `Session.Data` (src/main.go lines 171-188): the
from argument passed to `sendViaSendGrid` is the message's `From` header,
the recipient list is the session's envelope recipients, the subject is
the decoded `Subject` header (`decodeHeader`, external `mime.WordDecoder`
with raw fallback, passed in as `decodeSubject`). -/
def Session.dataRequest (parse : String → Option MailAddress)
    (decodeSubject : String → String) (s : Session) (m : Message)
    (mt : MediaTypeResult) (iterErr : Bool) (parts : List Part) : SendRequest :=
  Session.sendViaSendGrid parse (headerGet m.headers "From") s.to_
    (decodeSubject (headerGet m.headers "Subject")) m.body
    (headerGet m.headers "Content-Type") mt iterErr parts

/-- SMTP commands the protocol engine forwards to the session callbacks. -/
inductive Event where
  | mail (f : String)
  | rcpt (t : String)
  | data
  | reset

/-- Transaction phase tracked by the go-smtp protocol engine (external
collaborator with a fixed contract): MAIL is forwarded only when no
transaction is open, RCPT only after an accepted MAIL, DATA only after at
least one accepted RCPT; the envelope is reset when DATA finishes. -/
inductive Phase where
  | idle
  | mailAccepted
  | recipientsCollected
deriving DecidableEq

/-- One engine step: the engine's sequencing combined with the session
callbacks of src/main.go.  Commands arriving out of phase are refused by
the engine and never reach the callbacks, leaving the state unchanged. -/
def engineStep (ps : Phase × Session) (e : Event) : Phase × Session :=
  match ps.1, e with
  | .idle, .mail f =>
    match Session.Mail ps.2 f with
    | (s', none) => (.mailAccepted, s')
    | (s', some _) => (.idle, s')
  | .mailAccepted, .rcpt t => (.recipientsCollected, (Session.Rcpt ps.2 t).1)
  | .recipientsCollected, .rcpt t => (.recipientsCollected, (Session.Rcpt ps.2 t).1)
  | .recipientsCollected, .data => (.idle, ps.2.Reset)
  | _, .reset => (.idle, ps.2.Reset)
  | _, _ => ps

/-- A whole connection: start from the fresh session of `NewSession` and
run the engine over the command sequence. -/
def runEngine (cfg : Config) (remoteAddr : String) (events : List Event) :
    Phase × Session :=
  events.foldl engineStep (Phase.idle, Session.initial cfg remoteAddr)

/-- Invariant for C3: whenever the engine is in the phase in which it
forwards DATA, the recipient list is non-empty, and outside the idle phase
the stored sender passed the allow-list check whenever one is configured. -/
def EngineInv (ps : Phase × Session) : Prop :=
  (ps.1 = Phase.recipientsCollected → ps.2.to_ ≠ []) ∧
  (ps.1 ≠ Phase.idle → ps.2.config.allowedSenders ≠ [] →
    senderAllowed ps.2.config.allowedSenders ps.2.from_ = true)

/-- Readable part whose Content-Type contains `text/plain` (the first
branch of the part loop, src/main.go line 290). -/
def isPlainPart (p : Part) : Bool := p.readOk && containsSubstr p.contentType "text/plain"

/-- Readable part taken by the `text/html` branch of the part loop
(src/main.go line 292): not matched by the `text/plain` branch first. -/
def isHtmlPart (p : Part) : Bool :=
  p.readOk && !containsSubstr p.contentType "text/plain" &&
    containsSubstr p.contentType "text/html"

/-- Body of the last part the `text/plain` branch accepts (`""` if none):
the value `textContent` holds after the part loop. -/
def lastPlainBody (parts : List Part) : String :=
  parts.foldl (fun acc p => if isPlainPart p then p.body else acc) ""

/-- Body of the last part the `text/html` branch accepts (`""` if none):
the value `htmlContent` holds after the part loop. -/
def lastHtmlBody (parts : List Part) : String :=
  parts.foldl (fun acc p => if isHtmlPart p then p.body else acc) ""

/-- Allow-list configuration for the C2 counterexample: one domain `b`. -/
def c2Config : Config :=
  { sendGridAPIKey := "", listenAddr := "", domain := "localhost",
    logLevel := "info", allowedSenders := ["b"] }

/-- Fresh session for the C2 counterexample. -/
def c2Session : Session := Session.initial c2Config "198.51.100.7:4242"

/-- Part list for the C4 counterexample: a readable `text/plain` part with
an empty body and a readable `text/html` part with a non-empty body. -/
def c4Parts : List Part :=
  [Part.mk "text/plain; charset=utf-8" "" true,
   Part.mk "text/html; charset=utf-8" "<b>x</b>" true]

/-- Subject for the C6 counterexample, as a character sequence: 26 copies
of the two-byte UTF-8 character `é` (bytes 195, 169). -/
def c6Subject : List (List Nat) := List.replicate 26 [195, 169]

theorem isPrefixOfL_self_append (p r : List Char) : isPrefixOfL p (p ++ r) = true := by
  induction p with
  | nil => rfl
  | cons a as ih => simp [isPrefixOfL, ih]

theorem containsSubL_nil (l : List Char) : containsSubL [] l = true := by
  cases l <;> simp [containsSubL, isPrefixOfL]

theorem containsSubL_here (p c : List Char) : containsSubL p (p ++ c) = true := by
  cases p with
  | nil => simpa using containsSubL_nil c
  | cons b bs =>
    simp only [containsSubL, List.cons_append, Bool.or_eq_true]
    exact Or.inl (by simpa using isPrefixOfL_self_append (b :: bs) c)

theorem containsSubL_append (a p c : List Char) :
    containsSubL p (a ++ (p ++ c)) = true := by
  induction a with
  | nil => simpa using containsSubL_here p c
  | cons x xs ih =>
    cases p with
    | nil => exact containsSubL_nil _
    | cons b bs =>
      simp only [containsSubL, List.cons_append, Bool.or_eq_true]
      exact Or.inr (by simpa using ih)

theorem dataAppend (a b : String) : (a ++ b).data = a.data ++ b.data := by
  rcases a with ⟨as⟩; rcases b with ⟨bs⟩; rfl

theorem containsSubstr_mid (a p c : String) : containsSubstr (a ++ p ++ c) p = true := by
  have h : (a ++ p ++ c).data = a.data ++ (p.data ++ c.data) := by
    rw [dataAppend, dataAppend, List.append_assoc]
  rw [containsSubstr, h]
  exact containsSubL_append _ _ _

theorem containsSubstr_right (a p : String) : containsSubstr (a ++ p) p = true := by
  rw [containsSubstr, dataAppend]
  simpa using containsSubL_append a.data p.data []

theorem scanParts_eq (parts : List Part) (t h : String) :
    scanParts parts (t, h) =
      (parts.foldl (fun acc p => if isPlainPart p then p.body else acc) t,
       parts.foldl (fun acc p => if isHtmlPart p then p.body else acc) h) := by
  induction parts generalizing t h with
  | nil => rfl
  | cons p rest ih =>
    by_cases hr : p.readOk
    · by_cases hp : containsSubstr p.contentType "text/plain"
      · simp [scanParts, List.foldl, isPlainPart, isHtmlPart, hr, hp, ih]
      · by_cases hh : containsSubstr p.contentType "text/html"
        · simp [scanParts, List.foldl, isPlainPart, isHtmlPart, hr, hp, hh, ih]
        · simp [scanParts, List.foldl, isPlainPart, isHtmlPart, hr, hp, hh, ih]
    · simp [scanParts, List.foldl, isPlainPart, isHtmlPart, hr, ih]

theorem mail_cases (s : Session) (f : String) :
    (Session.Mail s f = (s, some "sender domain not allowed") ∧
      s.config.allowedSenders ≠ [] ∧
      senderAllowed s.config.allowedSenders f = false) ∨
    (Session.Mail s f = ({ s with from_ := f }, none) ∧
      (s.config.allowedSenders = [] ∨
        senderAllowed s.config.allowedSenders f = true)) := by
  rw [Session.Mail]
  by_cases hc : (decide (s.config.allowedSenders.length > 0) &&
      !senderAllowed s.config.allowedSenders f) = true
  · left
    refine ⟨by rw [if_pos hc], ?_⟩
    simp only [Bool.and_eq_true, decide_eq_true_eq, Bool.not_eq_true'] at hc
    exact ⟨List.length_pos.mp hc.1, hc.2⟩
  · right
    refine ⟨by rw [if_neg hc], ?_⟩
    by_cases hD : s.config.allowedSenders = []
    · exact Or.inl hD
    · right
      by_cases hsa : senderAllowed s.config.allowedSenders f
      · exact hsa
      · exact absurd (by simp [List.length_pos.mpr hD, hsa]) hc

theorem engineInv_idle (s : Session) : EngineInv (Phase.idle, s) := by
  constructor
  · intro h; cases h
  · intro h; cases h rfl

theorem engineStep_inv (ps : Phase × Session) (e : Event) (h : EngineInv ps) :
    EngineInv (engineStep ps e) := by
  rcases ps with ⟨p, s⟩
  cases e with
  | mail f =>
    cases p with
    | idle =>
      rcases mail_cases s f with ⟨hm, _, _⟩ | ⟨hm, hok⟩
      · have he : engineStep (Phase.idle, s) (Event.mail f) = (Phase.idle, s) := by
          simp [engineStep, hm]
        rw [he]; exact engineInv_idle s
      · have he : engineStep (Phase.idle, s) (Event.mail f) =
            (Phase.mailAccepted, { s with from_ := f }) := by
          simp [engineStep, hm]
        rw [he]
        refine ⟨fun hc => (nomatch hc), fun _ hne => ?_⟩
        rcases hok with hD | hsa
        · exact absurd hD hne
        · exact hsa
    | mailAccepted => exact h
    | recipientsCollected => exact h
  | rcpt t =>
    cases p with
    | idle => exact h
    | mailAccepted =>
      refine ⟨fun _ => by simp [engineStep, Session.Rcpt], fun _ hne => ?_⟩
      exact h.2 (fun hc => nomatch hc) hne
    | recipientsCollected =>
      refine ⟨fun _ => by simp [engineStep, Session.Rcpt], fun _ hne => ?_⟩
      exact h.2 (fun hc => nomatch hc) hne
  | data =>
    cases p with
    | idle => exact h
    | mailAccepted => exact h
    | recipientsCollected => exact engineInv_idle _
  | reset =>
    cases p <;> exact engineInv_idle _

theorem engineStep_config (ps : Phase × Session) (e : Event) :
    (engineStep ps e).2.config = ps.2.config := by
  rcases ps with ⟨p, s⟩
  cases e with
  | mail f =>
    cases p with
    | idle =>
      rcases mail_cases s f with ⟨hm, _, _⟩ | ⟨hm, _⟩ <;> simp [engineStep, hm]
    | mailAccepted => rfl
    | recipientsCollected => rfl
  | rcpt t => cases p <;> rfl
  | data => cases p <;> rfl
  | reset => cases p <;> rfl

theorem foldl_engine_inv (events : List Event) (ps : Phase × Session)
    (h : EngineInv ps) : EngineInv (events.foldl engineStep ps) := by
  induction events generalizing ps with
  | nil => exact h
  | cons e rest ih => exact ih _ (engineStep_inv _ _ h)

theorem foldl_engine_config (events : List Event) (ps : Phase × Session) :
    ((events.foldl engineStep ps).2).config = ps.2.config := by
  induction events generalizing ps with
  | nil => rfl
  | cons e rest ih => rw [List.foldl, ih, engineStep_config]

theorem runEngine_inv (cfg : Config) (remoteAddr : String) (events : List Event) :
    EngineInv (runEngine cfg remoteAddr events) :=
  foldl_engine_inv events _ (engineInv_idle _)

theorem runEngine_config (cfg : Config) (remoteAddr : String) (events : List Event) :
    (runEngine cfg remoteAddr events).2.config = cfg :=
  foldl_engine_config events _

theorem strAppend_assoc (a b c : String) : (a ++ b) ++ c = a ++ (b ++ c) := by
  rcases a with ⟨as⟩; rcases b with ⟨bs⟩; rcases c with ⟨cs⟩
  show String.mk ((as ++ bs) ++ cs) = String.mk (as ++ (bs ++ cs))
  rw [List.append_assoc]

/-- C9: `Session.Reset` sets the stored sender to `""` and the recipient
list to `[]`, and leaves the configuration and the remote address
unchanged, so the next transaction on the connection starts empty. -/
theorem reset_clears_envelope_only (s : Session) :
    Session.Reset s =
      { config := s.config, remoteAddr := s.remoteAddr, from_ := "", to_ := [] } := rfl

/-- C7: when a configured allow-list rejects the sender, `Session.Mail`
returns an error and the returned session state is exactly the prior
state: the candidate sender is not stored (any previously stored sender
persists) and the recipient list is not modified. -/
theorem mail_reject_preserves_state (s : Session) (f : String)
    (hcfg : s.config.allowedSenders ≠ [])
    (hrej : senderAllowed s.config.allowedSenders f = false) :
    Session.Mail s f = (s, some "sender domain not allowed") := by
  rcases mail_cases s f with ⟨hm, _, _⟩ | ⟨_, hok⟩
  · exact hm
  · rcases hok with hD | hsa
    · exact absurd hD hcfg
    · rw [hsa] at hrej; exact (nomatch hrej)

theorem mail_reject_preserves_state_witness :
    Session.Mail
        { config := Config.mk "" ":25" "localhost" "info" ["trusted.example"],
          remoteAddr := "203.0.113.9:5555", from_ := "old@trusted.example",
          to_ := ["kept@x.example"] }
        "x@evil.example" =
      ({ config := Config.mk "" ":25" "localhost" "info" ["trusted.example"],
         remoteAddr := "203.0.113.9:5555", from_ := "old@trusted.example",
         to_ := ["kept@x.example"] }, some "sender domain not allowed") :=
  mail_reject_preserves_state _ "x@evil.example" (by decide) (by decide)

/-- C2 (amended): `Session.Mail` accepts the sender iff no allow-list is
configured (empty list accepts every sender) or the lowercased sender ends
with `"@" ++ d` or with `"." ++ d ++ ">"` for some configured domain `d`
(lowercased); on acceptance the raw sender string is stored verbatim and
nothing else changes. -/
theorem mail_accept_iff_suffix_match (s : Session) (f : String) :
    ((Session.Mail s f).2 = none ↔
      (s.config.allowedSenders = [] ∨
        ∃ d ∈ s.config.allowedSenders,
          (hasSuffixStr (toLowerStr f) ("@" ++ toLowerStr d) ||
            hasSuffixStr (toLowerStr f) ("." ++ toLowerStr d ++ ">")) = true)) ∧
    ((Session.Mail s f).2 = none → (Session.Mail s f).1 = { s with from_ := f }) := by
  have hs : senderAllowed s.config.allowedSenders f = true ↔
      ∃ d ∈ s.config.allowedSenders,
        (hasSuffixStr (toLowerStr f) ("@" ++ toLowerStr d) ||
          hasSuffixStr (toLowerStr f) ("." ++ toLowerStr d ++ ">")) = true := by
    simp [senderAllowed, List.any_eq_true]
  rcases mail_cases s f with ⟨hm, hne, hsa⟩ | ⟨hm, hok⟩
  · rw [hm]
    refine ⟨⟨fun hc => (nomatch hc), fun hc => ?_⟩, fun hc => (nomatch hc)⟩
    exfalso
    rcases hc with hD | hex
    · exact hne hD
    · rw [hs.mpr hex] at hsa; exact (nomatch hsa)
  · rw [hm]
    refine ⟨⟨fun _ => ?_, fun _ => rfl⟩, fun _ => rfl⟩
    rcases hok with hD | hsa
    · exact Or.inl hD
    · exact Or.inr (hs.mp hsa)

theorem mail_accept_iff_suffix_match_witness :
    (Session.Mail c2Session "u@b").2 = none ∧
    (Session.Mail c2Session "u@b").1 = { c2Session with from_ := "u@b" } := by
  have h := mail_accept_iff_suffix_match c2Session "u@b"
  have hacc : (Session.Mail c2Session "u@b").2 = none :=
    h.1.mpr (Or.inr ⟨"b", by decide, by decide⟩)
  exact ⟨hacc, h.2 hacc⟩

/-- C2 (counterexample): with allow-list `["b"]` the sender `<u@a.b>` —
of the form `user@x` with user part `<u` and domain part `a.b>` — is
accepted by `Session.Mail`, although its domain, even lowercased and
stripped of the angle bracket, is `a.b`, which matches no member of the
allow-list: acceptance came from the `.domain>` suffix rule, so accepting
iff the sender's domain matches a configured domain is false. -/
theorem mail_accepts_nonmatching_domain :
    (Session.Mail c2Session "<u@a.b>").2 = none ∧
    (Session.Mail c2Session "<u@a.b>").1.from_ = "<u@a.b>" ∧
    "<u@a.b>" = "<u" ++ "@" ++ "a.b>" ∧
    c2Session.config.allowedSenders = ["b"] ∧
    toLowerStr "a.b>" ≠ toLowerStr "b" ∧
    trimAngles "a.b>" ≠ "b" := by
  refine ⟨by decide, by decide, by decide, by decide, by decide, by decide⟩

/-- C3: along any command sequence respecting the protocol engine's
sequencing contract (modelled by `engineStep`), whenever the engine is in
the phase in which it forwards DATA to `Session.Data`, the transaction's
recipient list is non-empty, and when an allow-list is configured the
stored sender passed it; so DATA never proceeds to translation on an
empty recipient list or an unvetted sender. -/
theorem data_requires_rcpt_and_allowed_sender (cfg : Config) (remoteAddr : String)
    (events : List Event)
    (h : (runEngine cfg remoteAddr events).1 = Phase.recipientsCollected) :
    (runEngine cfg remoteAddr events).2.to_ ≠ [] ∧
    (cfg.allowedSenders ≠ [] →
      senderAllowed cfg.allowedSenders (runEngine cfg remoteAddr events).2.from_ = true) := by
  have hinv := runEngine_inv cfg remoteAddr events
  have hcfg := runEngine_config cfg remoteAddr events
  refine ⟨hinv.1 h, fun hne => ?_⟩
  have h2 := hinv.2 (by rw [h]; exact fun hc => (nomatch hc)) (by rw [hcfg]; exact hne)
  rwa [hcfg] at h2

theorem data_requires_rcpt_and_allowed_sender_witness :
    (runEngine (Config.mk "k" ":25" "localhost" "info" ["b.com"]) "203.0.113.9:6666"
        [Event.mail "a@b.com", Event.rcpt "c@d.com"]).1 = Phase.recipientsCollected ∧
    (runEngine (Config.mk "k" ":25" "localhost" "info" ["b.com"]) "203.0.113.9:6666"
        [Event.mail "a@b.com", Event.rcpt "c@d.com"]).2.to_ ≠ [] ∧
    senderAllowed ["b.com"]
      (runEngine (Config.mk "k" ":25" "localhost" "info" ["b.com"]) "203.0.113.9:6666"
        [Event.mail "a@b.com", Event.rcpt "c@d.com"]).2.from_ = true := by
  have h := data_requires_rcpt_and_allowed_sender
    (Config.mk "k" ":25" "localhost" "info" ["b.com"]) "203.0.113.9:6666"
    [Event.mail "a@b.com", Event.rcpt "c@d.com"] (by decide)
  exact ⟨by decide, h.1, h.2 (by decide)⟩

/-- C6 (amended): the logged subject is the subject verbatim when its BYTE
length is at most 50, and otherwise its first 50 bytes followed by `...`;
Go `len` and slicing count bytes, not characters. -/
theorem truncate_bytes_spec (s : List Nat) :
    (s.length ≤ 50 → loggedSubject s = s) ∧
    (50 < s.length → loggedSubject s = s.take 50 ++ [46, 46, 46]) := by
  constructor
  · intro h
    simp only [loggedSubject, truncate]
    rw [if_pos h]
  · intro h
    simp only [loggedSubject, truncate]
    rw [if_neg (Nat.not_le.mpr h)]

theorem truncate_bytes_spec_witness :
    loggedSubject (List.replicate 10 104) = List.replicate 10 104 ∧
    loggedSubject (List.replicate 60 104) =
      (List.replicate 60 104).take 50 ++ [46, 46, 46] :=
  ⟨(truncate_bytes_spec (List.replicate 10 104)).1 (by decide),
   (truncate_bytes_spec (List.replicate 60 104)).2 (by decide)⟩

/-- C6 (counterexample): the subject `c6Subject` has 26 characters (each
the two-byte UTF-8 encoding of `é`), so it is at most 50 characters long
and the claim demands it be logged verbatim; but its byte sequence is 52
bytes long, so `truncate` cuts it at byte 50 and appends `...`. -/
theorem truncate_counts_bytes_not_chars :
    c6Subject.length ≤ 50 ∧
    loggedSubject c6Subject.flatten ≠ c6Subject.flatten ∧
    loggedSubject c6Subject.flatten = c6Subject.flatten.take 50 ++ [46, 46, 46] := by
  refine ⟨by decide, by decide, by decide⟩

/-- C8: interpretation of the provider response in `sendViaSendGrid`: a
transport-level error always fails the transaction; a response with
status at least 400 fails it with an error containing both the status
code and the response body; any status below 400 succeeds. -/
theorem send_response_interpretation (r : RestResponse) (e : String) :
    interpretSendResult (Except.error e) =
      Except.error ("sendgrid API error: " ++ e) ∧
    (400 ≤ r.statusCode →
      interpretSendResult (Except.ok r) =
        Except.error ("sendgrid returned status " ++ toString r.statusCode ++ ": "
          ++ r.body) ∧
      containsSubstr ("sendgrid returned status " ++ toString r.statusCode ++ ": "
          ++ r.body) (toString r.statusCode) = true ∧
      containsSubstr ("sendgrid returned status " ++ toString r.statusCode ++ ": "
          ++ r.body) r.body = true) ∧
    (r.statusCode < 400 → interpretSendResult (Except.ok r) = Except.ok ()) := by
  refine ⟨rfl, fun h400 => ⟨?_, ?_, ?_⟩, fun hlt => ?_⟩
  · simp only [interpretSendResult]
    rw [if_pos h400]
  · rw [strAppend_assoc ("sendgrid returned status " ++ toString r.statusCode) ": " r.body]
    exact containsSubstr_mid _ _ _
  · exact containsSubstr_right _ _
  · simp only [interpretSendResult]
    rw [if_neg (Nat.not_le.mpr hlt)]

theorem send_response_interpretation_witness :
    interpretSendResult (Except.ok (RestResponse.mk 500 "rate limited")) =
      Except.error ("sendgrid returned status " ++ toString (500 : Nat) ++ ": "
        ++ "rate limited") ∧
    containsSubstr ("sendgrid returned status " ++ toString (500 : Nat) ++ ": "
        ++ "rate limited") (toString (500 : Nat)) = true ∧
    containsSubstr ("sendgrid returned status " ++ toString (500 : Nat) ++ ": "
        ++ "rate limited") "rate limited" = true ∧
    interpretSendResult (Except.ok (RestResponse.mk 202 "")) = Except.ok () ∧
    interpretSendResult (Except.error "connection refused") =
      Except.error ("sendgrid API error: " ++ "connection refused") := by
  have h1 := (send_response_interpretation (RestResponse.mk 500 "rate limited") "x").2.1
    (by decide)
  have h2 := (send_response_interpretation (RestResponse.mk 202 "") "x").2.2 (by decide)
  have h3 := (send_response_interpretation (RestResponse.mk 0 "") "connection refused").1
  exact ⟨h1.1, h1.2.1, h1.2.2, h2, h3⟩

/-- C5: when the Content-Type contains `multipart/` and `handleMultipart`
fails — and it does fail on an unparseable media type, a missing boundary,
a part-iteration error, and when no text or html content is found — the
content selection still succeeds and yields exactly one `text/plain`
block holding the entire raw body; the failure never aborts the
transaction. -/
theorem multipart_failure_falls_back (mt : MediaTypeResult) (iterErr : Bool)
    (parts : List Part) (body contentType e mediaType boundary : String) :
    (containsSubstr contentType "multipart/" = true →
      handleMultipart mt iterErr parts = Except.error e →
      buildContent mt iterErr parts body contentType =
        [Content.mk "text/plain" body]) ∧
    handleMultipart MediaTypeResult.err iterErr parts =
      Except.error "media type parse error" ∧
    (hasPrefixStr mediaType "multipart/" = true →
      handleMultipart (MediaTypeResult.parsed mediaType "") iterErr parts =
        Except.error "no boundary found") ∧
    (hasPrefixStr mediaType "multipart/" = true → boundary ≠ "" →
      handleMultipart (MediaTypeResult.parsed mediaType boundary) true parts =
        Except.error "part iteration error") ∧
    (hasPrefixStr mediaType "multipart/" = true → boundary ≠ "" →
      lastPlainBody parts = "" → lastHtmlBody parts = "" →
      handleMultipart (MediaTypeResult.parsed mediaType boundary) false parts =
        Except.error "no text or html content found") := by
  have hsc : scanParts parts ("", "") = (lastPlainBody parts, lastHtmlBody parts) :=
    scanParts_eq parts "" ""
  refine ⟨fun hct herr => ?_, rfl, fun hmt => ?_, fun hmt hb => ?_, fun hmt hb hp hh => ?_⟩
  · simp only [buildContent]
    rw [if_pos hct, herr]
  · simp [handleMultipart, hmt]
  · simp [handleMultipart, hmt, hb]
  · simp [handleMultipart, hmt, hb, hsc, hp, hh]

theorem multipart_failure_falls_back_witness :
    containsSubstr "multipart/mixed" "multipart/" = true ∧
    handleMultipart (MediaTypeResult.parsed "multipart/mixed" "") false [] =
      Except.error "no boundary found" ∧
    buildContent (MediaTypeResult.parsed "multipart/mixed" "") false []
      "raw body" "multipart/mixed" = [Content.mk "text/plain" "raw body"] := by
  have h := multipart_failure_falls_back (MediaTypeResult.parsed "multipart/mixed" "")
    false [] "raw body" "multipart/mixed" "no boundary found" "multipart/mixed" ""
  exact ⟨by decide, h.2.2.1 (by decide), h.1 (by decide) (h.2.2.1 (by decide))⟩

/-- C4 (amended): for a multipart message whose parts include readable
`text/plain` and `text/html` parts and whose selected candidates — the
bodies of the LAST such parts, last occurrence wins — are both non-empty,
the translator produces exactly two content blocks ordered html-then-text,
each holding exactly that last part's body.  (The restriction to non-empty
candidate bodies is forced by the counterexample: an empty body yields no
block.) -/
theorem multipart_html_then_text (mediaType boundary contentType body : String)
    (parts : List Part)
    (hct : containsSubstr contentType "multipart/" = true)
    (hmt : hasPrefixStr mediaType "multipart/" = true)
    (hb : boundary ≠ "")
    (hplain : lastPlainBody parts ≠ "")
    (hhtml : lastHtmlBody parts ≠ "") :
    handleMultipart (MediaTypeResult.parsed mediaType boundary) false parts =
      Except.ok [Content.mk "text/html" (lastHtmlBody parts),
        Content.mk "text/plain" (lastPlainBody parts)] ∧
    buildContent (MediaTypeResult.parsed mediaType boundary) false parts body contentType =
      [Content.mk "text/html" (lastHtmlBody parts),
       Content.mk "text/plain" (lastPlainBody parts)] := by
  have hsc : scanParts parts ("", "") = (lastPlainBody parts, lastHtmlBody parts) :=
    scanParts_eq parts "" ""
  have hm : handleMultipart (MediaTypeResult.parsed mediaType boundary) false parts =
      Except.ok [Content.mk "text/html" (lastHtmlBody parts),
        Content.mk "text/plain" (lastPlainBody parts)] := by
    simp [handleMultipart, hmt, hb, hsc, hplain, hhtml]
  refine ⟨hm, ?_⟩
  simp only [buildContent]
  rw [if_pos hct, hm]

theorem multipart_html_then_text_witness :
    buildContent (MediaTypeResult.parsed "multipart/alternative" "bd") false
      [Part.mk "text/plain; charset=us-ascii" "hello" true,
       Part.mk "text/html; charset=us-ascii" "<p>hello</p>" true]
      "ignored raw" "multipart/alternative; boundary=bd" =
      [Content.mk "text/html" "<p>hello</p>", Content.mk "text/plain" "hello"] := by
  have h := multipart_html_then_text "multipart/alternative" "bd"
    "multipart/alternative; boundary=bd" "ignored raw"
    [Part.mk "text/plain; charset=us-ascii" "hello" true,
     Part.mk "text/html; charset=us-ascii" "<p>hello</p>" true]
    (by decide) (by decide) (by decide) (by decide) (by decide)
  exact h.2

/-- C4 (counterexample): `c4Parts` contains both a `text/plain` part and a
`text/html` part, yet the translator produces only ONE content block,
because the `text/plain` part's body is the empty string and an empty
candidate yields no block. -/
theorem both_parts_single_block :
    (c4Parts.any fun p => containsSubstr p.contentType "text/plain") = true ∧
    (c4Parts.any fun p => containsSubstr p.contentType "text/html") = true ∧
    handleMultipart (MediaTypeResult.parsed "multipart/alternative" "b1") false c4Parts =
      Except.ok [Content.mk "text/html" "<b>x</b>"] ∧
    [Content.mk "text/html" "<b>x</b>"].length ≠ 2 := by
  refine ⟨by decide, by decide, by rfl, by decide⟩

theorem handleMultipart_ok_shape (mt : MediaTypeResult) (iterErr : Bool)
    (parts : List Part) (blocks : List Content)
    (h : handleMultipart mt iterErr parts = Except.ok blocks) :
    blocks =
      (if lastHtmlBody parts != "" then [Content.mk "text/html" (lastHtmlBody parts)]
        else []) ++
      (if lastPlainBody parts != "" then [Content.mk "text/plain" (lastPlainBody parts)]
        else []) ∧
    ¬(lastPlainBody parts = "" ∧ lastHtmlBody parts = "") := by
  have hsc : scanParts parts ("", "") = (lastPlainBody parts, lastHtmlBody parts) :=
    scanParts_eq parts "" ""
  cases mt with
  | err => exact (nomatch h)
  | parsed mediaType boundary =>
    simp only [handleMultipart, hsc] at h
    split at h
    · exact (nomatch h)
    · split at h
      · exact (nomatch h)
      · split at h
        · exact (nomatch h)
        · split at h
          · exact (nomatch h)
          · rename_i hcond
            injection h with hb
            refine ⟨hb.symm, fun ⟨hp, hh⟩ => ?_⟩
            exact hcond (by simp [hp, hh])

/-- C1 (amended): content blocks produced by a successful multipart decode
are never empty, and `handleMultipart` fails explicitly when neither a
text nor an html candidate is found; the claim as stated fails for the
send request itself, because on decode failure (and on non-multipart
messages) the caller attaches the raw body verbatim — possibly the empty
string — instead of failing the send. -/
theorem multipart_blocks_nonempty (mt : MediaTypeResult) (iterErr : Bool)
    (parts : List Part) (blocks : List Content) :
    (handleMultipart mt iterErr parts = Except.ok blocks →
      ∀ c ∈ blocks, c.value ≠ "") ∧
    (lastPlainBody parts = "" → lastHtmlBody parts = "" →
      handleMultipart mt iterErr parts ≠ Except.ok blocks) := by
  constructor
  · intro h c hc
    obtain ⟨hb, _⟩ := handleMultipart_ok_shape mt iterErr parts blocks h
    subst hb
    rcases List.mem_append.mp hc with hm | hm
    · by_cases hh : lastHtmlBody parts != ""
      · rw [if_pos hh] at hm
        rw [List.mem_singleton.mp hm]
        simpa using hh
      · rw [if_neg hh] at hm
        exact (nomatch hm)
    · by_cases hp : lastPlainBody parts != ""
      · rw [if_pos hp] at hm
        rw [List.mem_singleton.mp hm]
        simpa using hp
      · rw [if_neg hp] at hm
        exact (nomatch hm)
  · intro hp hh h
    obtain ⟨_, hne⟩ := handleMultipart_ok_shape mt iterErr parts blocks h
    exact hne ⟨hp, hh⟩

theorem multipart_blocks_nonempty_witness :
    handleMultipart (MediaTypeResult.parsed "multipart/alternative" "bd") false
      [Part.mk "text/plain" "hi" true] = Except.ok [Content.mk "text/plain" "hi"] ∧
    ("hi" : String) ≠ "" := by
  refine ⟨by rfl, ?_⟩
  exact (multipart_blocks_nonempty (MediaTypeResult.parsed "multipart/alternative" "bd")
      false [Part.mk "text/plain" "hi" true] [Content.mk "text/plain" "hi"]).1
    (by rfl) (Content.mk "text/plain" "hi") (by decide)

/-- C1 (counterexample): a message whose Content-Type contains
`multipart/` but whose multipart decode fails (no boundary) and whose raw
body is empty: no text or html part is extracted, yet the send is not
failed — the request is built with exactly one content block whose body
IS the empty string. -/
theorem emptyBlock_reaches_provider :
    containsSubstr "multipart/mixed" "multipart/" = true ∧
    handleMultipart (MediaTypeResult.parsed "multipart/mixed" "") false [] =
      Except.error "no boundary found" ∧
    buildContent (MediaTypeResult.parsed "multipart/mixed" "") false [] "" "multipart/mixed" =
      [Content.mk "text/plain" ""] := by
  refine ⟨by decide, by rfl, by rfl⟩

/-- C10: the from-address of the send request built by `Session.Data` is
derived from the message's `From` header, never from the envelope sender
stored by `Session.Mail`: the request is unchanged under any change of the
stored envelope sender, and when the `From` header is absent or
unparseable the from-address is the raw header value stripped of angle
brackets (empty when the header is absent) with an empty display name. -/
theorem request_from_header_not_envelope (parse : String → Option MailAddress)
    (decodeSubject : String → String) (s : Session) (m : Message)
    (mt : MediaTypeResult) (iterErr : Bool) (parts : List Part) (f2 : String) :
    (Session.dataRequest parse decodeSubject s m mt iterErr parts).fromAddr =
      resolveAddr parse (headerGet m.headers "From") ∧
    (parse (headerGet m.headers "From") = none →
      (Session.dataRequest parse decodeSubject s m mt iterErr parts).fromAddr =
        { name := "", address := trimAngles (headerGet m.headers "From") }) ∧
    (m.headers.find? (fun kv => kv.1 == "From") = none →
      parse "" = none →
      (Session.dataRequest parse decodeSubject s m mt iterErr parts).fromAddr =
        { name := "", address := "" }) ∧
    Session.dataRequest parse decodeSubject { s with from_ := f2 } m mt iterErr parts =
      Session.dataRequest parse decodeSubject s m mt iterErr parts := by
  refine ⟨rfl, fun hp => ?_, fun hf hp => ?_, rfl⟩
  · simp only [Session.dataRequest, Session.sendViaSendGrid, resolveAddr, hp]
  · have hg : headerGet m.headers "From" = "" := by
      rw [headerGet, hf]
    simp only [Session.dataRequest, Session.sendViaSendGrid, resolveAddr, hg, hp]
    rfl

theorem request_from_header_not_envelope_witness :
    (Session.dataRequest (fun _ => none) (fun x => x)
        { config := Config.mk "" ":25" "localhost" "info" [],
          remoteAddr := "203.0.113.9:7777", from_ := "envelope@ok.example",
          to_ := ["rcpt@x.example"] }
        { headers := [], body := "hello" } MediaTypeResult.err false []).fromAddr =
      { name := "", address := "" } :=
  (request_from_header_not_envelope (fun _ => none) (fun x => x)
      { config := Config.mk "" ":25" "localhost" "info" [],
        remoteAddr := "203.0.113.9:7777", from_ := "envelope@ok.example",
        to_ := ["rcpt@x.example"] }
      { headers := [], body := "hello" } MediaTypeResult.err false []
      "other@ok.example").2.2.1 rfl rfl
